import Mathlib

/-!
# Verification of the pi-tmux session/window management core

Shallow embedding of `src/extensions/tmux.ts` (the tmux extension for the pi
coding agent).  The file models, directly from the TypeScript source:

* the JavaScript string primitives the extension relies on
  (`split("\n")`, `trim()`, the ANSI-escape-stripping regex, `replace(/\n+$/,"")`),
* the pending-input detector `detectPiInputText`,
* the name resolver `findUniqueWindowName`,
* the window registry (`activeWindows`, `lastWarnedInput`) as association lists,
* the five tool `execute` bodies (`tmux-bash`, `tmux-capture`, `tmux-send`,
  `tmux-kill`) and `createWindow` for the two variants of the source file.

External process interaction (`pi.exec` of tmux, the lock manager) is modelled
by passing each call's observable reply (exit code, stdout, stderr, lock name)
as an explicit argument, so every definition is a pure executable function of
the state and the replies.
-/

namespace PiTmux

/-! ## JavaScript string model (over `List Char`) -/

/-- The set of characters JavaScript treats as whitespace for `trim()` and
`\s` (WhiteSpace plus LineTerminator code points). -/
def jsWhitespace (c : Char) : Bool :=
  c = '\x09' || c = '\x0a' || c = '\x0b' || c = '\x0c' || c = '\x0d' || c = ' ' ||
  c = '\u00a0' || c = '\u1680' || (0x2000 ≤ c.toNat && c.toNat ≤ 0x200A) ||
  c = '\u2028' || c = '\u2029' || c = '\u202f' || c = '\u205f' || c = '\u3000' ||
  c = '\ufeff'

/-- JavaScript `String.prototype.trim` on a character list. -/
def trimChars (cs : List Char) : List Char :=
  ((cs.dropWhile jsWhitespace).reverse.dropWhile jsWhitespace).reverse

/-- JavaScript `s.split("\n")`: always returns at least one piece, and empty
pieces are kept (`"".split("\n") = [""]`, `"a\n".split("\n") = ["a",""]`). -/
def splitNlChars : List Char → List (List Char)
  | [] => [[]]
  | c :: cs =>
    let rest := splitNlChars cs
    if c = '\n' then [] :: rest
    else
      match rest with
      | h :: t => (c :: h) :: t
      | [] => [[c]]

/-- Inverse of `splitNlChars`: join pieces with a newline. -/
def joinNlChars : List (List Char) → List Char
  | [] => []
  | [l] => l
  | l :: ls => l ++ '\n' :: joinNlChars ls

/-- JavaScript `s.replace(/\n+$/, "")` — strip trailing newline characters
(used by the capture paths to drop trailing blank lines). -/
def stripTrailingNewlines (s : String) : String :=
  String.mk ((s.data.reverse.dropWhile (· = '\n')).reverse)

/-- UTF-8 byte length of a character list (JavaScript `Buffer.byteLength`). -/
def lineBytes (cs : List Char) : Nat :=
  (cs.map Char.utf8Size).sum

/-! ## ANSI escape stripping: the regex `\x1b\[[0-9;]*m` applied globally -/

/-- After having seen `ESC [`, consume `[0-9;]*m`; returns the remainder on a
successful match, `none` if the regex does not match here. -/
def ansiTail : List Char → Option (List Char)
  | [] => none
  | c :: cs =>
    if c = 'm' then some cs
    else if c.isDigit || c = ';' then ansiTail cs
    else none

/-- Left-to-right deletion of every match of the regex, fuelled so the
recursion is structural (a match always consumes at least one character, so
fuel equal to the input length never runs out). -/
def stripAnsiGo : Nat → List Char → List Char
  | 0, cs => cs
  | _ + 1, [] => []
  | fuel + 1, '\x1b' :: '[' :: rest =>
    (match ansiTail rest with
     | some rem => stripAnsiGo fuel rem
     | none => '\x1b' :: stripAnsiGo fuel ('[' :: rest))
  | fuel + 1, c :: cs => c :: stripAnsiGo fuel cs

/-- JavaScript `s.replace(/\x1b\[[0-9;]*m/g, "")`: left-to-right scan deleting
every ANSI color/style escape sequence. -/
def stripAnsiChars (cs : List Char) : List Char :=
  stripAnsiGo cs.length cs

/-! ## Pending-input detection (`detectPiInputText`, tmux.ts lines 239–273) -/

/-- A separator line: after trimming, at least 10 characters, all of them the
horizontal-rule glyph `─` (U+2500).  Source: `trimmed.length >= 10 &&
/^[─]+$/.test(trimmed)`. -/
def isSeparatorLine (l : List Char) : Bool :=
  decide (10 ≤ (trimChars l).length) && (trimChars l).all (· = '\u2500')

/-- Indices of the lines satisfying `p` (the source pushes loop indices). -/
def linesSatisfying (p : List Char → Bool) (lines : List (List Char)) : List Nat :=
  (List.range lines.length).filter (fun i => p (lines.getD i []))

/-- JavaScript `inputText.replace(/^>\s?/, "")`: drop one leading `>` together
with at most one following whitespace character. -/
def stripLeadingPrompt : List Char → List Char
  | [] => []
  | c :: rest =>
    if c = '>' then
      match rest with
      | [] => []
      | c2 :: rest2 => if jsWhitespace c2 then rest2 else rest
    else c :: rest

/-- `detectPiInputText` from the source: find all separator lines, take the
last two as the input box borders, clean the lines strictly between them
(strip ANSI escapes, trim, drop blanks and a bare `>`), join with newlines,
strip a leading prompt, trim; report `none` when nothing remains. -/
def detectPiInputText (capturedOutput : String) : Option String :=
  let lines := splitNlChars capturedOutput.data
  let separatorIndices := linesSatisfying isSeparatorLine lines
  if separatorIndices.length < 2 then none
  else
    let topSep := separatorIndices.getD (separatorIndices.length - 2) 0
    let bottomSep := separatorIndices.getD (separatorIndices.length - 1) 0
    let betweenLines := (lines.drop (topSep + 1)).take (bottomSep - (topSep + 1))
    let inputText := joinNlChars
      ((betweenLines.map (fun l => trimChars (stripAnsiChars l))).filter
        (fun l => !l.isEmpty && l ≠ ['>']))
    let cleaned := trimChars (stripLeadingPrompt inputText)
    if cleaned.isEmpty then none else some (String.mk cleaned)

/-- The separator-line predicate as the specification words it: the trimmed
line is the horizontal-rule glyph repeated at least 10 times. -/
def isSeparatorLineSpec (l : List Char) : Bool :=
  let t := trimChars l
  decide (t = List.replicate t.length '\u2500') && decide (10 ≤ t.length)

/-- The remainder after stripping the leading prompt from the first kept
line, as the spec words it ("strips a leading prompt-and-space if present,
and joins the remainder"). -/
def specRest : List (List Char) → List (List Char)
  | [] => []
  | h :: t => stripLeadingPrompt h :: t

/-- The pending-input detector as the specification and claim C6 word it:
fewer than two separator lines report none; otherwise the lines strictly
between the last two separators are stripped of escapes, trimmed, blanks and a
bare prompt glyph discarded, a leading prompt-and-space stripped from the
remainder, and the rest joined; an empty result reports none.  Written with a
different structure (take-then-drop extraction, prompt stripped from the first
remaining line before joining) to be compared with the source definition. -/
def detectPendingInputSpec (capturedOutput : String) : Option String :=
  let lines := splitNlChars capturedOutput.data
  let seps := linesSatisfying isSeparatorLineSpec lines
  if 2 ≤ seps.length then
    let top := seps.getD (seps.length - 2) 0
    let bottom := seps.getD (seps.length - 1) 0
    let between := (lines.take bottom).drop (top + 1)
    let kept := (between.map (fun l => trimChars (stripAnsiChars l))).filter
        (fun l => !l.isEmpty && l ≠ ['>'])
    let joined := trimChars (joinNlChars (specRest kept))
    if joined.isEmpty then none else some (String.mk joined)
  else none

/-! ## Name resolution (`findUniqueWindowName`, tmux.ts lines 76–111) -/

/-- The candidate name `` `${baseName}-${n}` ``. -/
def windowCandidate (baseName : String) (n : Nat) : String :=
  baseName ++ "-" ++ toString n

/-- The `while (n < 1000)` probe loop.  The fuel argument encodes the loop
bound: the loop body runs for `n = 2, 3, …, 999`, i.e. at most `998` times, so
the initial call uses fuel `998` and keeps the invariant `fuel = 1000 - n`.
On exhaustion the source falls back to `` `${baseName}-${process.pid}` ``. -/
def probeLoop (existingNames : List String) (baseName : String) (pid : Nat) :
    Nat → Nat → String
  | 0, _ => baseName ++ "-" ++ toString pid
  | fuel + 1, n =>
    if windowCandidate baseName n ∈ existingNames then
      probeLoop existingNames baseName pid fuel (n + 1)
    else windowCandidate baseName n

/-- `findUniqueWindowName`: the union of the multiplexer's live window names
and the locally tracked names is probed; the base name is returned unchanged
when free, otherwise `base-2`, `base-3`, … up to the bound, then the pid
fallback.  (`liveNames` stands for the parsed stdout of
`tmux list-windows -F "#{window_name}"`, empty when that call failed.) -/
def findUniqueWindowName (liveNames trackedNames : List String) (pid : Nat)
    (baseName : String) : String :=
  let existingNames := liveNames ++ trackedNames
  if baseName ∈ existingNames then probeLoop existingNames baseName pid 998 2
  else baseName

/-! ## The local registries (`activeWindows`, `lastWarnedInput`) -/

/-- Metadata tracked per window in `activeWindows` (first variant). -/
structure WindowInfo where
  created : Nat
  lockName : Option String
  isCodingAgent : Bool
deriving DecidableEq, Repr

/-- Metadata tracked per window in `activeWindows` (second variant, which has
no coding-agent flag). -/
structure WindowInfoV2 where
  created : Nat
  lockName : Option String
deriving DecidableEq, Repr

/-- `Map.get`: first binding of the key, if any. -/
def mapGet {α : Type} : List (String × α) → String → Option α
  | [], _ => none
  | (k, v) :: rest, key => if k = key then some v else mapGet rest key

/-- `Map.delete`: remove the binding(s) of the key. -/
def mapErase {α : Type} : List (String × α) → String → List (String × α)
  | [], _ => []
  | (k, v) :: rest, key =>
    if k = key then mapErase rest key else (k, v) :: mapErase rest key

/-- `Map.set`: bind the key, replacing any previous binding. -/
def mapSet {α : Type} (m : List (String × α)) (key : String) (v : α) :
    List (String × α) :=
  mapErase m key ++ [(key, v)]

/-- `Map.keys`. -/
def mapKeys {α : Type} (m : List (String × α)) : List String :=
  m.map (·.1)

/-! ## Output truncation

`truncateTail`, `DEFAULT_MAX_LINES` and `DEFAULT_MAX_BYTES` are imported from
the external `@mariozechner/pi-coding-agent` package, whose source is not part
of this repository, so the truncation itself is modelled from the spec. -/

/-- What `truncateTail` reports. -/
structure TruncationResult where
  content : String
  truncated : Bool
  outputLines : Nat
  totalLines : Nat
  outputBytes : Nat
  totalBytes : Nat
deriving DecidableEq, Repr

/-- Drop lines from the front until the joined text fits in `maxBytes`. -/
def dropUntilBytesFit (maxBytes : Nat) : List (List Char) → List (List Char)
  | [] => []
  | l :: ls =>
    if lineBytes (joinNlChars (l :: ls)) ≤ maxBytes then l :: ls
    else dropUntilBytesFit maxBytes ls

/-- The tail kept by the truncation policy: cap the line count first, then
drop further lines from the front until the byte cap is met. -/
def truncKept (s : String) (maxLines maxBytes : Nat) : List (List Char) :=
  dropUntilBytesFit maxBytes
    ((splitNlChars s.data).drop ((splitNlChars s.data).length - maxLines))

/-- Modelled from the spec: `truncateTail` of the external
`@mariozechner/pi-coding-agent` package (not part of this repository) applies
"a two-dimensional truncation policy bounded by both a maximum number of lines
and a maximum number of bytes, keeping the *tail* of the content" and reports
how many of how many lines/bytes were kept. -/
def truncateTail (s : String) (maxLines maxBytes : Nat) : TruncationResult :=
  { content := String.mk (joinNlChars (truncKept s maxLines maxBytes))
    truncated :=
      decide ((truncKept s maxLines maxBytes).length < (splitNlChars s.data).length)
    outputLines := (truncKept s maxLines maxBytes).length
    totalLines := (splitNlChars s.data).length
    outputBytes := lineBytes (joinNlChars (truncKept s maxLines maxBytes))
    totalBytes := lineBytes s.data }

/-! ## `createWindow` (first variant, tmux.ts lines 119–179) -/

/-- Error kinds thrown by `createWindow` (as `TmuxError.code`). -/
inductive CreateError where
  | noTmux
  | windowExists
  | createFailed (message : String)
deriving DecidableEq, Repr

/-- Result of a `createWindow` call: either an error or the actual window name
together with the lock name. -/
inductive CreateResultT where
  | ok (actualName : String) (lockName : Option String)
  | err (e : CreateError)
deriving DecidableEq, Repr

/-- Observable effects of one `createWindow` call. -/
structure CreateEffects where
  result : CreateResultT
  /-- The argument vector passed to `tmux new-window`, `none` if the call
  never reached window creation. -/
  newWindowArgs : Option (List String)
  /-- Locks released on the failure path. -/
  releasedLocks : List String
  /-- `activeWindows` afterwards. -/
  windows : List (String × WindowInfo)
deriving DecidableEq, Repr

/-- The `; rm -f '/tmp/pi-locks/<lock>'` cleanup appended to the command. -/
def lockCleanup : Option String → String
  | some ln => "; rm -f \x27/tmp/pi-locks/" ++ ln ++ "\x27"
  | none => ""

/-- The argument vector `createWindow` passes to `tmux`. -/
def newWindowArgsFor (sanitize : String → String) (name : String)
    (cwd : Option String) (wrappedCommand : String) : List String :=
  ["new-window", "-n", name, "-d", "-P", "-F", "#{window_id}",
   "-e", "PI_LOCK_NAME=" ++ sanitize name]
  ++ (match cwd with | some c => ["-c", c] | none => [])
  ++ ["--", "bash", "-c", wrappedCommand]

/-- `createWindow` of the first variant.  External replies are passed in:
`lockResult` is what `createLock(getTmuxLockName(name))` reported (`none` when
it returned `null`), `execCode`/`execStdout`/`execStderr` are the reply of the
`tmux new-window` invocation, `sanitize` is the lock manager's `sanitizeName`,
and `now` is `Date.now()`. -/
def createWindow (sanitize : String → String) (tmuxAvail : Bool)
    (liveNames : List String) (pid : Nat)
    (windows : List (String × WindowInfo))
    (lockResult : Option String)
    (execCode : Nat) (execStdout execStderr : String) (now : Nat)
    (requestedName command : String) (cwd : Option String)
    (skipTmuxLock : Bool) : CreateEffects :=
  if !tmuxAvail then
    ⟨.err .noTmux, none, [], windows⟩
  else
    let name := findUniqueWindowName liveNames (mapKeys windows) pid requestedName
    let lockName : Option String := if skipTmuxLock then none else lockResult
    let wrappedCommand := command ++ lockCleanup lockName
    let args := newWindowArgsFor sanitize name cwd wrappedCommand
    if execCode ≠ 0 then
      ⟨.err (.createFailed ("Error creating tmux window: " ++
          (if execStderr ≠ "" then execStderr else execStdout))),
        some args, lockName.toList, windows⟩
    else
      ⟨.ok name lockName, some args, [],
        mapSet windows name ⟨now, lockName, false⟩⟩

/-- `createWindow` of the second variant (tmux.ts lines 962–1010): fails fast
with `window_exists` when the requested name is already tracked locally, and
performs no renaming at all otherwise. -/
def createWindowV2 (sanitize : String → String) (tmuxAvail : Bool)
    (windows : List (String × WindowInfoV2))
    (lockResult : Option String)
    (execCode : Nat) (execStdout execStderr : String) (now : Nat)
    (name command : String) (cwd : Option String)
    (skipTmuxLock : Bool) : CreateResultT × Option (List String) ×
      List String × List (String × WindowInfoV2) :=
  if !tmuxAvail then
    (.err .noTmux, none, [], windows)
  else if (mapGet windows name).isSome then
    (.err .windowExists, none, [], windows)
  else
    let lockName : Option String := if skipTmuxLock then none else lockResult
    let wrappedCommand := command ++ lockCleanup lockName
    let args := newWindowArgsFor sanitize name cwd wrappedCommand
    if execCode ≠ 0 then
      (.err (.createFailed ("Error creating tmux window: " ++
          (if execStderr ≠ "" then execStderr else execStdout))),
        some args, lockName.toList, windows)
    else
      (.ok name lockName, some args, [], mapSet windows name ⟨now, lockName⟩)

/-- `tmux-bash` chooses its command with `command || "exec bash"`: the empty
string is the only falsy string, so it is replaced by `"exec bash"`. -/
def tmuxBashCommand (command : String) : String :=
  if command = "" then "exec bash" else command

/-- The `tmux-bash` tool body (first variant, tmux.ts lines 383–411):
delegates to `createWindow` with the defaulted command and no cwd. -/
def tmuxBashExecute (sanitize : String → String) (tmuxAvail : Bool)
    (liveNames : List String) (pid : Nat)
    (windows : List (String × WindowInfo))
    (lockResult : Option String)
    (execCode : Nat) (execStdout execStderr : String) (now : Nat)
    (requestedName command : String) : CreateEffects :=
  createWindow sanitize tmuxAvail liveNames pid windows lockResult
    execCode execStdout execStderr now requestedName
    (tmuxBashCommand command) none false

/-! ## `tmux-send` (first variant, tmux.ts lines 528–647) -/

inductive SendOutcome where
  | noTmux
  | windowNotFound
  | humanTypingDetected (existingInput intendedText : String)
  | sendFailed (stderr : String)
  | sent (text : String) (enter : Bool)
deriving DecidableEq, Repr

structure SendResult where
  outcome : SendOutcome
  /-- The `tmux send-keys` argument vector, `none` when nothing was forwarded. -/
  sentArgs : Option (List String)
  windows : List (String × WindowInfo)
  warned : List (String × String)
deriving DecidableEq, Repr

/-- The `tmux-send` tool body.  `liveNames` is the parsed window list,
`capture` is the reply of the 50-line `capture-pane` (`some stdout` when its
exit code was 0, `none` otherwise), `sendCode`/`sendStderr` the reply of
`send-keys`. -/
def tmuxSendExecute (tmuxAvail : Bool) (liveNames : List String)
    (windows : List (String × WindowInfo)) (warned : List (String × String))
    (name text : String) (enter : Bool)
    (capture : Option String) (sendCode : Nat) (sendStderr : String) :
    SendResult :=
  if !tmuxAvail then ⟨.noTmux, none, windows, warned⟩
  else if name ∉ liveNames then
    ⟨.windowNotFound, none, mapErase windows name, warned⟩
  else
    let isCodingAgent := match mapGet windows name with
      | some info => info.isCodingAgent
      | none => false
    let checked : Option String × List (String × String) :=
      if isCodingAgent && enter then
        match capture with
        | some capturedOut =>
          match detectPiInputText capturedOut with
          | some existingInput =>
            if mapGet warned name = some existingInput then
              (none, mapErase warned name)
            else
              (some existingInput, mapSet warned name existingInput)
          | none => (none, mapErase warned name)
        | none => (none, warned)
      else (none, warned)
    match checked with
    | (some existingInput, warned2) =>
      ⟨.humanTypingDetected existingInput text, none, windows, warned2⟩
    | (none, warned2) =>
      let args := ["send-keys", "-t", name, text] ++
        (if enter then ["Enter"] else [])
      if sendCode ≠ 0 then ⟨.sendFailed sendStderr, some args, windows, warned2⟩
      else ⟨.sent text enter, some args, windows, warned2⟩

/-! ## `tmux-kill` (first variant, tmux.ts lines 657–753) -/

inductive KillOutcome where
  | noTmux
  /-- `details: { name, existed: false }` — a success, not an error. -/
  | notFound
  | killFailed (stderr : String)
  | killedOk (lockReleased : Bool) (lockName : Option String)
deriving DecidableEq, Repr

structure KillResult where
  outcome : KillOutcome
  /-- Locks passed to `releaseLock` during the call. -/
  releasedLocks : List String
  windows : List (String × WindowInfo)
  warned : List (String × String)
deriving DecidableEq, Repr

/-- Whether an outcome means the window existed at the time of the call. -/
def killExisted : KillOutcome → Bool
  | .notFound => false
  | _ => true

/-- Whether an outcome is reported with `isError: true`. -/
def killIsError : KillOutcome → Bool
  | .noTmux => true
  | .killFailed _ => true
  | _ => false

/-- The `tmux-kill` tool body.  `killCode`/`killStderr` are the reply of
`tmux kill-window`, `releaseOk` is what `releaseLock` returned. -/
def tmuxKillExecute (tmuxAvail : Bool) (liveNames : List String)
    (windows : List (String × WindowInfo)) (warned : List (String × String))
    (name : String) (killCode : Nat) (killStderr : String)
    (releaseOk : Bool) : KillResult :=
  if !tmuxAvail then ⟨.noTmux, [], windows, warned⟩
  else if name ∉ liveNames then
    let released := match mapGet windows name with
      | some info => info.lockName.toList
      | none => []
    ⟨.notFound, released, mapErase windows name, mapErase warned name⟩
  else
    let lockN := (mapGet windows name).bind (·.lockName)
    let lockReleased := if lockN.isSome then releaseOk else false
    let windows2 := mapErase windows name
    let warned2 := mapErase warned name
    if killCode ≠ 0 then
      ⟨.killFailed killStderr, lockN.toList, windows2, warned2⟩
    else
      ⟨.killedOk lockReleased lockN, lockN.toList, windows2, warned2⟩

/-! ## `tmux-capture` (first variant, tmux.ts lines 422–517) -/

inductive CaptureOutcome where
  | noTmux
  /-- `details: { error: "window_not_found", available: windowNames }`. -/
  | windowNotFound (available : List String)
  | captureFailed (stderr : String)
  | captured (text : String) (shownLines : Nat) (truncated : Bool)
deriving DecidableEq, Repr

structure CaptureResult where
  outcome : CaptureOutcome
  windows : List (String × WindowInfo)
deriving DecidableEq, Repr

/-- The `tmux-capture` tool body.  `capCode`/`capStdout`/`capStderr` are the
reply of `capture-pane`; `maxLines`/`maxBytes` stand for the package constants
`DEFAULT_MAX_LINES`/`DEFAULT_MAX_BYTES`.  (The human-readable truncation
banner appended to the text is display formatting and out of scope.) -/
def tmuxCaptureExecute (tmuxAvail : Bool) (liveNames : List String)
    (windows : List (String × WindowInfo)) (name : String)
    (capCode : Nat) (capStdout capStderr : String)
    (maxLines maxBytes : Nat) (now : Nat) : CaptureResult :=
  if !tmuxAvail then ⟨.noTmux, windows⟩
  else if name ∉ liveNames then
    ⟨.windowNotFound liveNames, mapErase windows name⟩
  else if capCode ≠ 0 then ⟨.captureFailed capStderr, windows⟩
  else
    let output := stripTrailingNewlines capStdout
    let truncation := truncateTail output maxLines maxBytes
    let windows2 :=
      if (mapGet windows name).isSome then windows
      else mapSet windows name ⟨now, none, false⟩
    ⟨.captured truncation.content truncation.outputLines truncation.truncated,
      windows2⟩

/-! ## Registry lemmas -/

theorem mapGet_mapErase {α : Type} (m : List (String × α)) (key : String) :
    mapGet (mapErase m key) key = none := by
  induction m with
  | nil => rfl
  | cons p rest ih =>
    obtain ⟨k, v⟩ := p
    by_cases hk : k = key
    · simpa [mapErase, hk] using ih
    · simpa [mapErase, mapGet, hk] using ih

/-! ## Name-resolution lemmas -/

theorem probeLoop_exhausted (existingNames : List String) (baseName : String)
    (pid : Nat) :
    ∀ fuel n, (∀ k, n ≤ k → k < n + fuel →
        windowCandidate baseName k ∈ existingNames) →
      probeLoop existingNames baseName pid fuel n =
        baseName ++ "-" ++ toString pid := by
  intro fuel
  induction fuel with
  | zero => intro n _; rfl
  | succ fuel ih =>
    intro n h
    have hn : windowCandidate baseName n ∈ existingNames :=
      h n (Nat.le_refl n) (by omega)
    simp only [probeLoop, if_pos hn]
    exact ih (n + 1) (fun k hk1 hk2 => h k (by omega) (by omega))

theorem probeLoop_first (existingNames : List String) (baseName : String)
    (pid : Nat) :
    ∀ fuel n k, n ≤ k → k < n + fuel →
      windowCandidate baseName k ∉ existingNames →
      (∀ j, n ≤ j → j < k → windowCandidate baseName j ∈ existingNames) →
      probeLoop existingNames baseName pid fuel n = windowCandidate baseName k := by
  intro fuel
  induction fuel with
  | zero => intro n k h1 h2 _ _; omega
  | succ fuel ih =>
    intro n k h1 h2 hfree hbelow
    by_cases hnk : n = k
    · subst hnk
      simp only [probeLoop, if_neg hfree]
    · have hn : windowCandidate baseName n ∈ existingNames :=
        hbelow n (Nat.le_refl n) (by omega)
      simp only [probeLoop, if_pos hn]
      exact ih (n + 1) k (by omega) (by omega) hfree
        (fun j hj1 hj2 => hbelow j (by omega) hj2)

theorem probeLoop_dashed (existingNames : List String) (baseName : String)
    (pid : Nat) :
    ∀ fuel n, ∃ suffix,
      probeLoop existingNames baseName pid fuel n = baseName ++ "-" ++ suffix := by
  intro fuel
  induction fuel with
  | zero => intro n; exact ⟨toString pid, rfl⟩
  | succ fuel ih =>
    intro n
    by_cases hn : windowCandidate baseName n ∈ existingNames
    · simpa only [probeLoop, if_pos hn] using ih (n + 1)
    · exact ⟨toString n, by simp only [probeLoop, if_neg hn]; rfl⟩

theorem probeLoop_ne_base (existingNames : List String) (baseName : String)
    (pid : Nat) (fuel n : Nat) :
    probeLoop existingNames baseName pid fuel n ≠ baseName := by
  obtain ⟨suffix, hs⟩ := probeLoop_dashed existingNames baseName pid fuel n
  rw [hs]
  intro h
  have := congrArg String.length h
  simp only [String.length_append] at this
  have h1 : 1 ≤ ("-" : String).length := by decide
  omega

/-! ## Claim C2: name resolution -/

/-- **C2.** For every base name and every state of the window list and local
registry, `findUniqueWindowName` returns the base name unchanged when it is
absent from the union of the live window names and the tracked names;
otherwise it returns the first free candidate among `base-2`, `base-3`, … in
increasing order; when every candidate below the `n < 1000` bound is taken it
returns the pid fallback `` `${baseName}-${pid}` ``.  (The Lean function is
pure and total, so the operation mutates nothing and never errors.) -/
theorem findUniqueWindowName_resolution (liveNames trackedNames : List String)
    (pid : Nat) (baseName : String) :
    (baseName ∉ liveNames ++ trackedNames →
      findUniqueWindowName liveNames trackedNames pid baseName = baseName)
    ∧ (baseName ∈ liveNames ++ trackedNames →
      ∀ k, 2 ≤ k → k < 1000 →
        windowCandidate baseName k ∉ liveNames ++ trackedNames →
        (∀ j, 2 ≤ j → j < k →
          windowCandidate baseName j ∈ liveNames ++ trackedNames) →
        findUniqueWindowName liveNames trackedNames pid baseName =
          windowCandidate baseName k)
    ∧ (baseName ∈ liveNames ++ trackedNames →
      (∀ k, 2 ≤ k → k < 1000 →
        windowCandidate baseName k ∈ liveNames ++ trackedNames) →
      findUniqueWindowName liveNames trackedNames pid baseName =
        baseName ++ "-" ++ toString pid) := by
  refine ⟨fun habs => ?_, fun hmem k hk2 hk1000 hfree hbelow => ?_,
    fun hmem htaken => ?_⟩
  · simp only [findUniqueWindowName, if_neg habs]
  · simp only [findUniqueWindowName, if_pos hmem]
    exact probeLoop_first _ _ _ 998 2 k hk2 (by omega) hfree
      (fun j hj1 hj2 => hbelow j hj1 hj2)
  · simp only [findUniqueWindowName, if_pos hmem]
    exact probeLoop_exhausted _ _ _ 998 2
      (fun k hk1 hk2 => htaken k hk1 (by omega))

/-- Witness for C2: with `dev` live, the resolver renames to `dev-2`. -/
theorem findUniqueWindowName_resolution_witness :
    findUniqueWindowName ["dev"] [] 7 "dev" = "dev-2" :=
  (findUniqueWindowName_resolution ["dev"] [] 7 "dev").2.1 (by decide)
    2 (by decide) (by decide) (by decide)
    (fun j hj1 hj2 => absurd (Nat.lt_of_le_of_lt hj1 hj2) (Nat.lt_irrefl 2))

/-! ## Claim C5: failed window creation -/

/-- **C5.** When the `tmux new-window` call reports a non-zero exit code,
`createWindow` releases the lock it acquired earlier in the same call (if
any), fails with `create_failed` carrying the backend's stderr (or stdout when
stderr is empty), and leaves the local registry unchanged. -/
theorem createWindow_failure_releases_lock (sanitize : String → String)
    (liveNames : List String) (pid : Nat)
    (windows : List (String × WindowInfo)) (lockResult : Option String)
    (execCode : Nat) (execStdout execStderr : String) (now : Nat)
    (requestedName command : String) (cwd : Option String)
    (skipTmuxLock : Bool) (hfail : execCode ≠ 0) :
    (createWindow sanitize true liveNames pid windows lockResult execCode
        execStdout execStderr now requestedName command cwd skipTmuxLock).result
      = .err (.createFailed ("Error creating tmux window: " ++
          (if execStderr ≠ "" then execStderr else execStdout)))
    ∧ (createWindow sanitize true liveNames pid windows lockResult execCode
        execStdout execStderr now requestedName command cwd
        skipTmuxLock).releasedLocks
      = (if skipTmuxLock then none else lockResult).toList
    ∧ (createWindow sanitize true liveNames pid windows lockResult execCode
        execStdout execStderr now requestedName command cwd
        skipTmuxLock).windows = windows := by
  refine ⟨?_, ?_, ?_⟩ <;> simp [createWindow, hfail]

/-- Witness for C5: a concrete failed creation releases the acquired lock,
reports the stderr text, and adds no registry entry. -/
theorem createWindow_failure_releases_lock_witness :
    (createWindow id true [] 7 [] (some "tmux:dev") 1 "" "boom" 0 "dev"
        "cmd" none false).result
      = .err (.createFailed "Error creating tmux window: boom")
    ∧ (createWindow id true [] 7 [] (some "tmux:dev") 1 "" "boom" 0 "dev"
        "cmd" none false).releasedLocks = ["tmux:dev"]
    ∧ (createWindow id true [] 7 [] (some "tmux:dev") 1 "" "boom" 0 "dev"
        "cmd" none false).windows = [] := by
  have h := createWindow_failure_releases_lock id [] 7 [] (some "tmux:dev")
    1 "" "boom" 0 "dev" "cmd" none false (by decide)
  simpa using h

/-! ## Claim C9: coordination-identity environment variable -/

/-- **C9.** Every successful `createWindow` launches the child with
`-e PI_LOCK_NAME=<sanitized actual name>`; whenever the lock manager's
sanitizer fixes the resolved name (as it does for ordinary window names), the
environment value equals the resolved session name — the `actualName`
returned by name resolution, not the requested name.  (`sanitizeName` itself
lives in the external `pi-semaphore` package and is kept abstract.) -/
theorem createWindow_env_identity (sanitize : String → String)
    (liveNames : List String) (pid : Nat)
    (windows : List (String × WindowInfo)) (lockResult : Option String)
    (execStdout execStderr : String) (now : Nat)
    (requestedName command : String) (cwd : Option String)
    (skipTmuxLock : Bool)
    (hfix : sanitize (findUniqueWindowName liveNames (mapKeys windows) pid
        requestedName)
      = findUniqueWindowName liveNames (mapKeys windows) pid requestedName) :
    (createWindow sanitize true liveNames pid windows lockResult 0
        execStdout execStderr now requestedName command cwd skipTmuxLock).result
      = .ok (findUniqueWindowName liveNames (mapKeys windows) pid requestedName)
          (if skipTmuxLock then none else lockResult)
    ∧ (createWindow sanitize true liveNames pid windows lockResult 0
        execStdout execStderr now requestedName command cwd
        skipTmuxLock).newWindowArgs.bind (fun args => args[7]?)
      = some "-e"
    ∧ (createWindow sanitize true liveNames pid windows lockResult 0
        execStdout execStderr now requestedName command cwd
        skipTmuxLock).newWindowArgs.bind (fun args => args[8]?)
      = some ("PI_LOCK_NAME=" ++
          findUniqueWindowName liveNames (mapKeys windows) pid requestedName) := by
  refine ⟨?_, ?_, ?_⟩ <;>
    cases cwd <;> simp [createWindow, newWindowArgsFor, hfix]

/-- Witness for C9: with an identity sanitizer and the base name free, the
spawned window's environment assignment carries the resolved name `dev`. -/
theorem createWindow_env_identity_witness :
    (createWindow id true [] 7 [] (some "tmux:dev") 0 "@1" "" 5 "dev" "cmd"
        none false).newWindowArgs.bind (fun args => args[8]?)
      = some "PI_LOCK_NAME=dev" := by
  have h := createWindow_env_identity id [] 7 [] (some "tmux:dev") "@1" "" 5
    "dev" "cmd" none false rfl
  simpa using h.2.2

/-! ## Claim C10: `tmux-bash` default command -/

/-- **C10.** `tmux-bash` replaces an empty `command` parameter with the fixed
default `"exec bash"` and passes any non-empty command through unchanged: the
`tmux new-window` invocation runs `bash -c` on exactly
`tmuxBashCommand command ++ lockCleanup`. -/
theorem tmuxBash_default_command (sanitize : String → String)
    (liveNames : List String) (pid : Nat)
    (windows : List (String × WindowInfo)) (lockResult : Option String)
    (execCode : Nat) (execStdout execStderr : String) (now : Nat)
    (requestedName command : String) :
    (tmuxBashExecute sanitize true liveNames pid windows lockResult execCode
        execStdout execStderr now requestedName command).newWindowArgs
      = some (newWindowArgsFor sanitize
          (findUniqueWindowName liveNames (mapKeys windows) pid requestedName)
          none (tmuxBashCommand command ++ lockCleanup lockResult))
    ∧ (command = "" → tmuxBashCommand command = "exec bash")
    ∧ (command ≠ "" → tmuxBashCommand command = command) := by
  refine ⟨?_, fun h => by simp [tmuxBashCommand, h], fun h => by
    simp [tmuxBashCommand, h]⟩
  by_cases hc : execCode = 0 <;>
    simp [tmuxBashExecute, createWindow, hc]

/-- Witness for C10: an empty command becomes `exec bash`, a non-empty one is
kept. -/
theorem tmuxBash_default_command_witness :
    (tmuxBashExecute id true [] 7 [] none 0 "@1" "" 5 "dev" "").newWindowArgs
      = some (newWindowArgsFor id "dev" none "exec bash")
    ∧ tmuxBashCommand "" = "exec bash"
    ∧ tmuxBashCommand "npm run dev" = "npm run dev" := by
  have h1 := tmuxBash_default_command id [] 7 [] none 0 "@1" "" 5 "dev" ""
  have h2 := tmuxBash_default_command id [] 7 [] none 0 "@1" "" 5 "dev"
    "npm run dev"
  exact ⟨by simpa using h1.1, h1.2.1 rfl, h2.2.2 (by decide)⟩

/-! ## Claim C8: capture of a vanished window -/

/-- **C8.** A `tmux-capture` call naming a window that is absent from the
multiplexer's live list deletes any local registry entry for the name and
fails with `window_not_found`, and the error payload carries the list of
currently live window names. -/
theorem tmuxCapture_not_found (liveNames : List String)
    (windows : List (String × WindowInfo)) (name : String)
    (capCode : Nat) (capStdout capStderr : String)
    (maxLines maxBytes now : Nat) (habs : name ∉ liveNames) :
    (tmuxCaptureExecute true liveNames windows name capCode capStdout
        capStderr maxLines maxBytes now).outcome = .windowNotFound liveNames
    ∧ mapGet (tmuxCaptureExecute true liveNames windows name capCode capStdout
        capStderr maxLines maxBytes now).windows name = none := by
  constructor
  · simp [tmuxCaptureExecute, habs]
  · simpa [tmuxCaptureExecute, habs] using mapGet_mapErase windows name

/-- Witness for C8: capturing `ghost` while only `dev` is live reports
`window_not_found` with the live list `["dev"]` and deregisters `ghost`. -/
theorem tmuxCapture_not_found_witness :
    (tmuxCaptureExecute true ["dev"] [("ghost", ⟨0, none, false⟩)] "ghost"
        0 "" "" 100 1000 5).outcome = .windowNotFound ["dev"]
    ∧ mapGet (tmuxCaptureExecute true ["dev"] [("ghost", ⟨0, none, false⟩)]
        "ghost" 0 "" "" 100 1000 5).windows "ghost" = none :=
  tmuxCapture_not_found ["dev"] [("ghost", ⟨0, none, false⟩)] "ghost"
    0 "" "" 100 1000 5 (by decide)

/-! ## Claim C4: kill semantics and idempotence -/

/-- **C4.** `tmux-kill` of an absent window succeeds with `existed:false`
(never an error), releases any lock still recorded for the name and clears the
registry and the interference-warning cache; a kill of a live window releases
the recorded lock and clears all local state regardless of the kill exit
code, and reports `kill_failed` with the backend's stderr exactly when the
exit code is non-zero.  Consequently killing a live name and then killing it
again (the window now gone) yields `existed:true` then `existed:false` with no
error on the second call. -/
theorem tmuxKill_idempotent_cleanup (liveNames liveNames2 : List String)
    (windows : List (String × WindowInfo)) (warned : List (String × String))
    (name killStderr2 : String) (killCode killCode2 : Nat)
    (killStderr : String) (releaseOk releaseOk2 : Bool) :
    (name ∉ liveNames →
      (tmuxKillExecute true liveNames windows warned name killCode killStderr
          releaseOk).outcome = .notFound
      ∧ killIsError (tmuxKillExecute true liveNames windows warned name
          killCode killStderr releaseOk).outcome = false
      ∧ (tmuxKillExecute true liveNames windows warned name killCode
          killStderr releaseOk).releasedLocks
        = ((mapGet windows name).bind WindowInfo.lockName).toList
      ∧ mapGet (tmuxKillExecute true liveNames windows warned name killCode
          killStderr releaseOk).windows name = none
      ∧ mapGet (tmuxKillExecute true liveNames windows warned name killCode
          killStderr releaseOk).warned name = none)
    ∧ (name ∈ liveNames →
      (tmuxKillExecute true liveNames windows warned name killCode killStderr
          releaseOk).releasedLocks
        = ((mapGet windows name).bind WindowInfo.lockName).toList
      ∧ mapGet (tmuxKillExecute true liveNames windows warned name killCode
          killStderr releaseOk).windows name = none
      ∧ mapGet (tmuxKillExecute true liveNames windows warned name killCode
          killStderr releaseOk).warned name = none
      ∧ ((tmuxKillExecute true liveNames windows warned name killCode
          killStderr releaseOk).outcome = .killFailed killStderr ↔ killCode ≠ 0)
      ∧ (killCode = 0 →
        (tmuxKillExecute true liveNames windows warned name killCode killStderr
            releaseOk).outcome
          = .killedOk
              (if ((mapGet windows name).bind WindowInfo.lockName).isSome
               then releaseOk else false)
              ((mapGet windows name).bind WindowInfo.lockName)))
    ∧ (name ∈ liveNames → name ∉ liveNames2 → killCode = 0 →
      killExisted (tmuxKillExecute true liveNames windows warned name killCode
          killStderr releaseOk).outcome = true
      ∧ (tmuxKillExecute true liveNames2
          (tmuxKillExecute true liveNames windows warned name killCode
            killStderr releaseOk).windows
          (tmuxKillExecute true liveNames windows warned name killCode
            killStderr releaseOk).warned
          name killCode2 killStderr2 releaseOk2).outcome = .notFound
      ∧ killIsError (tmuxKillExecute true liveNames2
          (tmuxKillExecute true liveNames windows warned name killCode
            killStderr releaseOk).windows
          (tmuxKillExecute true liveNames windows warned name killCode
            killStderr releaseOk).warned
          name killCode2 killStderr2 releaseOk2).outcome = false) := by
  refine ⟨fun habs => ?_, fun hmem => ?_, fun hmem habs2 hcode => ?_⟩
  · refine ⟨by simp [tmuxKillExecute, habs], by simp [tmuxKillExecute, habs,
      killIsError], ?_, ?_, ?_⟩
    · cases h : mapGet windows name <;>
        simp [tmuxKillExecute, habs, h, Option.bind]
    · simpa [tmuxKillExecute, habs] using mapGet_mapErase windows name
    · simpa [tmuxKillExecute, habs] using mapGet_mapErase warned name
  · refine ⟨?_, ?_, ?_, ?_, ?_⟩
    · by_cases hc : killCode = 0 <;> simp [tmuxKillExecute, hmem, hc]
    · by_cases hc : killCode = 0 <;>
        simpa [tmuxKillExecute, hmem, hc] using mapGet_mapErase windows name
    · by_cases hc : killCode = 0 <;>
        simpa [tmuxKillExecute, hmem, hc] using mapGet_mapErase warned name
    · by_cases hc : killCode = 0 <;> simp [tmuxKillExecute, hmem, hc]
    · intro hc; simp [tmuxKillExecute, hmem, hc]
  · refine ⟨by simp [tmuxKillExecute, hmem, hcode, killExisted], ?_, ?_⟩
    · simp [tmuxKillExecute, habs2]
    · simp [tmuxKillExecute, habs2, killIsError]

/-- Witness for C4: killing live `dev` (exit 0) reports `killedOk` and
releases its lock; the immediate second kill reports `notFound` without
error. -/
theorem tmuxKill_idempotent_cleanup_witness :
    (tmuxKillExecute true ["dev"] [("dev", ⟨0, some "tmux:dev", false⟩)]
        [("dev", "hello")] "dev" 0 "" true).outcome
      = .killedOk true (some "tmux:dev")
    ∧ killExisted (tmuxKillExecute true ["dev"]
        [("dev", ⟨0, some "tmux:dev", false⟩)] [("dev", "hello")] "dev" 0 ""
        true).outcome = true
    ∧ (tmuxKillExecute true []
        (tmuxKillExecute true ["dev"] [("dev", ⟨0, some "tmux:dev", false⟩)]
          [("dev", "hello")] "dev" 0 "" true).windows
        (tmuxKillExecute true ["dev"] [("dev", ⟨0, some "tmux:dev", false⟩)]
          [("dev", "hello")] "dev" 0 "" true).warned
        "dev" 0 "" true).outcome = .notFound := by
  have h := tmuxKill_idempotent_cleanup ["dev"] []
    [("dev", ⟨0, some "tmux:dev", false⟩)] [("dev", "hello")] "dev" "" 0 0 ""
    true true
  have h3 := h.2.2 (by decide) (by decide) rfl
  exact ⟨by simpa using (h.2.1 (by decide)).2.2.2.2 rfl, h3.1, h3.2.1⟩

/-! ## Claim C1: the human-typing interference policy of `tmux-send` -/

/-- **C1.** For a live window tracked as a coding agent, a send with
`enter = true` whose pane capture succeeded runs pending-input detection:
detected text differing from (or with no) cached warning caches the text and
returns the human-typing advisory without forwarding any keystrokes; detected
text identical to the cached warning clears the cache and forwards; no
detected text clears any cached warning and forwards.  For windows not
tracked as coding agents, or when `enter = false`, no detection is performed
and the keystrokes are forwarded unconditionally with the cache untouched. -/
theorem tmuxSend_interference_policy (liveNames : List String)
    (windows : List (String × WindowInfo)) (warned : List (String × String))
    (name text capturedOut : String) (enter : Bool)
    (sendCode : Nat) (sendStderr : String) (hlive : name ∈ liveNames) :
    ((mapGet windows name).map WindowInfo.isCodingAgent = some true →
      enter = true →
      (∀ t, detectPiInputText capturedOut = some t →
        mapGet warned name ≠ some t →
        (tmuxSendExecute true liveNames windows warned name text enter
            (some capturedOut) sendCode sendStderr).outcome
          = .humanTypingDetected t text
        ∧ (tmuxSendExecute true liveNames windows warned name text enter
            (some capturedOut) sendCode sendStderr).sentArgs = none
        ∧ (tmuxSendExecute true liveNames windows warned name text enter
            (some capturedOut) sendCode sendStderr).warned
          = mapSet warned name t)
      ∧ (∀ t, detectPiInputText capturedOut = some t →
        mapGet warned name = some t →
        (tmuxSendExecute true liveNames windows warned name text enter
            (some capturedOut) sendCode sendStderr).sentArgs
          = some (["send-keys", "-t", name, text] ++ ["Enter"])
        ∧ (tmuxSendExecute true liveNames windows warned name text enter
            (some capturedOut) sendCode sendStderr).warned
          = mapErase warned name)
      ∧ (detectPiInputText capturedOut = none →
        (tmuxSendExecute true liveNames windows warned name text enter
            (some capturedOut) sendCode sendStderr).sentArgs
          = some (["send-keys", "-t", name, text] ++ ["Enter"])
        ∧ (tmuxSendExecute true liveNames windows warned name text enter
            (some capturedOut) sendCode sendStderr).warned
          = mapErase warned name))
    ∧ ((mapGet windows name).map WindowInfo.isCodingAgent ≠ some true ∨
        enter = false →
      (tmuxSendExecute true liveNames windows warned name text enter
          (some capturedOut) sendCode sendStderr).sentArgs
        = some (["send-keys", "-t", name, text] ++
            (if enter then ["Enter"] else []))
      ∧ (tmuxSendExecute true liveNames windows warned name text enter
          (some capturedOut) sendCode sendStderr).warned = warned) := by
  have hca : ∀ b, (mapGet windows name).map WindowInfo.isCodingAgent = some b →
      (match mapGet windows name with
        | some info => info.isCodingAgent
        | none => false) = b := by
    intro b hb
    cases h : mapGet windows name <;> rw [h] at hb <;> simp_all
  constructor
  · intro hagent henter
    have hca1 := hca true hagent
    refine ⟨fun t hdet hdiff => ?_, fun t hdet hsame => ?_, fun hdet => ?_⟩
    · by_cases hc : sendCode = 0 <;>
        simp [tmuxSendExecute, hlive, hca1, henter, hdet, hdiff, hc]
    · by_cases hc : sendCode = 0 <;>
        simp [tmuxSendExecute, hlive, hca1, henter, hdet, hsame, hc]
    · by_cases hc : sendCode = 0 <;>
        simp [tmuxSendExecute, hlive, hca1, henter, hdet, hc]
  · intro hskip
    have hno : (match mapGet windows name with
        | some info => info.isCodingAgent
        | none => false) = false ∨ enter = false := by
      rcases hskip with h | h
      · left
        cases hmg : mapGet windows name
        · rfl
        · rw [hmg] at h; simp at h; simpa using h
      · right; exact h
    rcases hno with h | h <;> by_cases hc : sendCode = 0 <;>
      simp [tmuxSendExecute, hlive, h, hc]

/-- Witness for C1: in a coding-agent window whose input box holds `hello`
with no cached warning, the send is blocked, nothing is forwarded, and
`hello` is cached. -/
theorem tmuxSend_interference_policy_witness :
    (tmuxSendExecute true ["worker"] [("worker", ⟨0, none, true⟩)] []
        "worker" "do the task" true
        (some "──────────\n> hello\n──────────\nfooter") 0 "").outcome
      = .humanTypingDetected "hello" "do the task"
    ∧ (tmuxSendExecute true ["worker"] [("worker", ⟨0, none, true⟩)] []
        "worker" "do the task" true
        (some "──────────\n> hello\n──────────\nfooter") 0 "").sentArgs = none
    ∧ (tmuxSendExecute true ["worker"] [("worker", ⟨0, none, true⟩)] []
        "worker" "do the task" true
        (some "──────────\n> hello\n──────────\nfooter") 0 "").warned
      = [("worker", "hello")] := by
  have h := ((tmuxSend_interference_policy ["worker"]
    [("worker", ⟨0, none, true⟩)] [] "worker" "do the task"
    "──────────\n> hello\n──────────\nfooter" true 0 ""
    (by decide)).1 rfl rfl).1 "hello" (by rfl) (by decide)
  exact ⟨h.1, h.2.1, h.2.2⟩

/-! ## Claim C3: spawn-on-collision policy (corrected) -/

/-- **C3 counterexample.** In the first (current) variant, a spawn whose
requested name `dev` is already tracked in the local registry does *not* fail
with `already-exists`: it silently auto-renames to `dev-2`, acquires a lock
and creates the window. -/
theorem createWindow_already_exists_counterexample :
    (createWindow id true [] 7 [("dev", ⟨0, none, false⟩)] (some "tmux:dev-2")
        0 "@1" "" 5 "dev" "sleep 99" none false).result
      = .ok "dev-2" (some "tmux:dev-2")
    ∧ (createWindow id true [] 7 [("dev", ⟨0, none, false⟩)]
        (some "tmux:dev-2") 0 "@1" "" 5 "dev" "sleep 99" none
        false).result ≠ .err .windowExists := by
  constructor
  · rfl
  · decide

/-- **C3 (amended).** The two variants implement the two halves separately.
First variant: a requested name colliding with a tracked or live name is
always silently auto-renamed by the name resolver and the spawn succeeds with
the renamed `actualName` (which provably differs from the requested name);
it never fails with `already-exists`.  Second variant: a requested name
already tracked locally fails fast with `window_exists`, performing no lock
acquisition and no window creation; a name not tracked locally is used
unchanged — no auto-rename — even when it collides with a live window (the
second variant never consults the live list). -/
theorem createWindow_collision_policy (sanitize : String → String)
    (liveNames : List String) (pid : Nat)
    (windows : List (String × WindowInfo))
    (windowsV2 : List (String × WindowInfoV2)) (lockResult : Option String)
    (execCode : Nat) (execStdout execStderr : String) (now : Nat)
    (requestedName command : String) (cwd : Option String)
    (skipTmuxLock : Bool) :
    (requestedName ∈ liveNames ++ mapKeys windows →
      (createWindow sanitize true liveNames pid windows lockResult 0
          execStdout execStderr now requestedName command cwd skipTmuxLock).result
        = .ok (findUniqueWindowName liveNames (mapKeys windows) pid
            requestedName) (if skipTmuxLock then none else lockResult)
      ∧ findUniqueWindowName liveNames (mapKeys windows) pid requestedName
        ≠ requestedName)
    ∧ ((mapGet windowsV2 requestedName).isSome = true →
      createWindowV2 sanitize true windowsV2 lockResult execCode execStdout
          execStderr now requestedName command cwd skipTmuxLock
        = (.err .windowExists, none, [], windowsV2))
    ∧ ((mapGet windowsV2 requestedName).isSome = false →
      (createWindowV2 sanitize true windowsV2 lockResult 0 execStdout
          execStderr now requestedName command cwd skipTmuxLock).1
        = .ok requestedName (if skipTmuxLock then none else lockResult)) := by
  refine ⟨fun hmem => ⟨by simp [createWindow], ?_⟩, fun htracked => ?_,
    fun hfree => ?_⟩
  · simp only [findUniqueWindowName, if_pos hmem]
    exact probeLoop_ne_base _ _ _ 998 2
  · simp [createWindowV2, htracked]
  · simp [createWindowV2, hfree]

/-- Witness for the amended C3: the second variant rejects a locally tracked
`dev` with `window_exists` and leaves everything untouched, while a free name
is used unchanged. -/
theorem createWindow_collision_policy_witness :
    createWindowV2 id true [("dev", ⟨0, none⟩)] none 0 "" "" 3 "dev" "x"
        none false
      = (.err .windowExists, none, [], [("dev", ⟨0, none⟩)])
    ∧ (createWindowV2 id true [] (some "tmux:dev") 0 "@1" "" 3 "dev" "x"
        none false).1 = .ok "dev" (some "tmux:dev") := by
  have h1 := (createWindow_collision_policy id [] 7 [] [("dev", ⟨0, none⟩)]
    none 0 "" "" 3 "dev" "x" none false).2.1 rfl
  have h2 := (createWindow_collision_policy id [] 7 [] [] (some "tmux:dev")
    0 "@1" "" 3 "dev" "x" none false).2.2 rfl
  exact ⟨h1, h2⟩

/-! ## Text lemmas for truncation -/

theorem splitNlChars_ne_nil (cs : List Char) : splitNlChars cs ≠ [] := by
  cases cs with
  | nil => simp [splitNlChars]
  | cons c cs =>
    by_cases hc : c = '\n'
    · simp [splitNlChars, hc]
    · cases hrest : splitNlChars cs <;> simp [splitNlChars, hc, hrest]

theorem joinNlChars_consHead (c : Char) (h : List Char)
    (t : List (List Char)) :
    joinNlChars ((c :: h) :: t) = c :: joinNlChars (h :: t) := by
  cases t <;> simp [joinNlChars]

theorem joinNl_splitNl (cs : List Char) : joinNlChars (splitNlChars cs) = cs := by
  induction cs with
  | nil => rfl
  | cons c cs ih =>
    cases hrest : splitNlChars cs with
    | nil => exact absurd hrest (splitNlChars_ne_nil cs)
    | cons h t =>
      rw [hrest] at ih
      by_cases hc : c = '\n'
      · subst hc
        simpa [splitNlChars, hrest, joinNlChars] using ih
      · rw [show splitNlChars (c :: cs) = (c :: h) :: t by
          simp [splitNlChars, hc, hrest], joinNlChars_consHead, ih]

theorem lineBytes_append (a b : List Char) :
    lineBytes (a ++ b) = lineBytes a + lineBytes b := by
  simp [lineBytes]

theorem lineBytes_joinNl_cons_le (l : List Char) (ls : List (List Char)) :
    lineBytes (joinNlChars ls) ≤ lineBytes (joinNlChars (l :: ls)) := by
  cases ls with
  | nil => simp [joinNlChars, lineBytes]
  | cons x xs =>
    simp only [joinNlChars, lineBytes_append]
    have : lineBytes ('\n' :: joinNlChars (x :: xs))
        = Char.utf8Size '\n' + lineBytes (joinNlChars (x :: xs)) := by
      simp [lineBytes]
    omega

theorem lineBytes_joinNl_drop_le (ls : List (List Char)) (k : Nat) :
    lineBytes (joinNlChars (ls.drop k)) ≤ lineBytes (joinNlChars ls) := by
  induction ls generalizing k with
  | nil => simp
  | cons l ls ih =>
    cases k with
    | zero => simp
    | succ k =>
      calc lineBytes (joinNlChars ((l :: ls).drop (k + 1)))
          = lineBytes (joinNlChars (ls.drop k)) := by simp
        _ ≤ lineBytes (joinNlChars ls) := ih k
        _ ≤ lineBytes (joinNlChars (l :: ls)) := lineBytes_joinNl_cons_le l ls

theorem dropUntilBytesFit_suffix (maxBytes : Nat) (ls : List (List Char)) :
    ∃ k, k ≤ ls.length ∧ dropUntilBytesFit maxBytes ls = ls.drop k := by
  induction ls with
  | nil => exact ⟨0, by simp, rfl⟩
  | cons l ls ih =>
    by_cases hfit : lineBytes (joinNlChars (l :: ls)) ≤ maxBytes
    · exact ⟨0, by simp, by simp [dropUntilBytesFit, hfit]⟩
    · obtain ⟨k, hk, heq⟩ := ih
      exact ⟨k + 1, by simpa using hk, by simp [dropUntilBytesFit, hfit, heq]⟩

theorem dropUntilBytesFit_of_fits (maxBytes : Nat) (ls : List (List Char))
    (h : lineBytes (joinNlChars ls) ≤ maxBytes) :
    dropUntilBytesFit maxBytes ls = ls := by
  cases ls with
  | nil => rfl
  | cons l ls => simp [dropUntilBytesFit, h]

theorem dropUntilBytesFit_fits_of_eq_self (maxBytes : Nat) (l : List Char)
    (ls : List (List Char))
    (h : dropUntilBytesFit maxBytes (l :: ls) = l :: ls) :
    lineBytes (joinNlChars (l :: ls)) ≤ maxBytes := by
  by_cases hfit : lineBytes (joinNlChars (l :: ls)) ≤ maxBytes
  · exact hfit
  · exfalso
    rw [show dropUntilBytesFit maxBytes (l :: ls) = dropUntilBytesFit maxBytes ls
      by simp [dropUntilBytesFit, hfit]] at h
    obtain ⟨k, hk, heq⟩ := dropUntilBytesFit_suffix maxBytes ls
    rw [heq] at h
    have := congrArg List.length h
    simp [List.length_drop] at this
    omega

/-- Characterization of `truncateTail`: the kept text is a suffix of the line
list, its caps hold, and it is untouched exactly when both caps are met. -/
theorem truncateTail_spec (s : String) (maxLines maxBytes : Nat) :
    (maxLines < (truncateTail s maxLines maxBytes).totalLines ∨
      maxBytes < (truncateTail s maxLines maxBytes).totalBytes →
      (truncateTail s maxLines maxBytes).truncated = true
      ∧ (truncateTail s maxLines maxBytes).outputLines
        ≤ (truncateTail s maxLines maxBytes).totalLines
      ∧ (truncateTail s maxLines maxBytes).outputBytes
        ≤ (truncateTail s maxLines maxBytes).totalBytes
      ∧ (truncateTail s maxLines maxBytes).content
        = String.mk (joinNlChars ((splitNlChars s.data).drop
            ((truncateTail s maxLines maxBytes).totalLines -
              (truncateTail s maxLines maxBytes).outputLines))))
    ∧ ((truncateTail s maxLines maxBytes).totalLines ≤ maxLines →
      (truncateTail s maxLines maxBytes).totalBytes ≤ maxBytes →
      (truncateTail s maxLines maxBytes).content = s
      ∧ (truncateTail s maxLines maxBytes).truncated = false) := by
  obtain ⟨k2, hk2le, hk2⟩ := dropUntilBytesFit_suffix maxBytes
    ((splitNlChars s.data).drop
      ((splitNlChars s.data).length - maxLines))
  rw [List.length_drop] at hk2le
  have hkept : truncKept s maxLines maxBytes
      = (splitNlChars s.data).drop
          (((splitNlChars s.data).length - maxLines) + k2) := by
    rw [truncKept, hk2, List.drop_drop]
  have hkeptlen : (truncKept s maxLines maxBytes).length
      = (splitNlChars s.data).length -
        (((splitNlChars s.data).length - maxLines) + k2) := by
    rw [hkept, List.length_drop]
  have htotpos : 1 ≤ (splitNlChars s.data).length :=
    List.length_pos.mpr (splitNlChars_ne_nil s.data)
  have htotbytes : lineBytes (joinNlChars (splitNlChars s.data))
      = lineBytes s.data := by rw [joinNl_splitNl]
  constructor
  · intro hexceed
    have hexceed2 : maxLines < (splitNlChars s.data).length ∨
        maxBytes < lineBytes s.data := by
      simpa only [truncateTail] using hexceed
    have hKpos : 0 < ((splitNlChars s.data).length - maxLines) + k2 := by
      rcases hexceed2 with hL | hB
      · omega
      · by_contra hK0
        have hk20 : k2 = 0 := by omega
        have hml0 : (splitNlChars s.data).length - maxLines = 0 := by omega
        have h2 := hk2
        rw [hml0, List.drop_zero, hk20, List.drop_zero] at h2
        cases hlines : splitNlChars s.data with
        | nil => exact splitNlChars_ne_nil s.data hlines
        | cons l t =>
          rw [hlines] at h2
          have hfit := dropUntilBytesFit_fits_of_eq_self maxBytes l t h2
          rw [← hlines, htotbytes] at hfit
          omega
    refine ⟨?_, ?_, ?_, ?_⟩
    · simp only [truncateTail, decide_eq_true_eq, hkeptlen]
      omega
    · simp only [truncateTail, hkeptlen]
      omega
    · simp only [truncateTail, hkept, ← htotbytes]
      exact lineBytes_joinNl_drop_le ..
    · simp only [truncateTail, hkept, hkeptlen, List.length_drop]
      congr 2
      congr 1
      omega
  · intro hL hB
    simp only [truncateTail] at hL hB
    have hml0 : (splitNlChars s.data).length - maxLines = 0 := by omega
    have hfits : lineBytes (joinNlChars (splitNlChars s.data)) ≤ maxBytes := by
      rw [htotbytes]; exact hB
    have hfull : truncKept s maxLines maxBytes = splitNlChars s.data := by
      rw [truncKept, hml0, List.drop_zero, dropUntilBytesFit_of_fits _ _ hfits]
    constructor
    · simp only [truncateTail, hfull, joinNl_splitNl]
    · simp only [truncateTail, hfull, decide_eq_false_iff_not]
      omega

/-! ## Claim C7: the capture truncation invariant -/

/-- **C7.** For every captured text — after trailing blank lines are stripped,
as `tmux-capture` does before truncating — exceeding the line cap or byte cap
yields `truncated = true`, `shownLines ≤ totalLines`, `shownBytes ≤
totalBytes`, and a text that is exactly the trailing `shownLines` lines of the
stripped capture; when neither cap is exceeded the text is returned whole with
`truncated = false`. -/
theorem captureTruncation_invariant (raw : String) (maxLines maxBytes : Nat) :
    (maxLines < (truncateTail (stripTrailingNewlines raw) maxLines
        maxBytes).totalLines ∨
      maxBytes < (truncateTail (stripTrailingNewlines raw) maxLines
        maxBytes).totalBytes →
      (truncateTail (stripTrailingNewlines raw) maxLines maxBytes).truncated
        = true
      ∧ (truncateTail (stripTrailingNewlines raw) maxLines
          maxBytes).outputLines
        ≤ (truncateTail (stripTrailingNewlines raw) maxLines
            maxBytes).totalLines
      ∧ (truncateTail (stripTrailingNewlines raw) maxLines
          maxBytes).outputBytes
        ≤ (truncateTail (stripTrailingNewlines raw) maxLines
            maxBytes).totalBytes
      ∧ (truncateTail (stripTrailingNewlines raw) maxLines maxBytes).content
        = String.mk (joinNlChars
            ((splitNlChars (stripTrailingNewlines raw).data).drop
              ((truncateTail (stripTrailingNewlines raw) maxLines
                  maxBytes).totalLines -
                (truncateTail (stripTrailingNewlines raw) maxLines
                  maxBytes).outputLines))))
    ∧ ((truncateTail (stripTrailingNewlines raw) maxLines
        maxBytes).totalLines ≤ maxLines →
      (truncateTail (stripTrailingNewlines raw) maxLines
        maxBytes).totalBytes ≤ maxBytes →
      (truncateTail (stripTrailingNewlines raw) maxLines maxBytes).content
        = stripTrailingNewlines raw
      ∧ (truncateTail (stripTrailingNewlines raw) maxLines
          maxBytes).truncated = false) :=
  truncateTail_spec (stripTrailingNewlines raw) maxLines maxBytes

/-- Witness for C7: a three-line capture squeezed through a two-line cap keeps
exactly the last two lines and reports the truncation. -/
theorem captureTruncation_invariant_witness :
    (truncateTail (stripTrailingNewlines "a\nbb\nccc\n\n") 2 1000).truncated
      = true
    ∧ (truncateTail (stripTrailingNewlines "a\nbb\nccc\n\n") 2 1000).content
      = "bb\nccc" := by
  have h := (captureTruncation_invariant "a\nbb\nccc\n\n" 2 1000).1
    (by left; decide)
  refine ⟨h.1, ?_⟩
  rw [h.2.2.2]
  rfl

/-! ## Claim C6: the pending-input detector matches its specification -/

theorem isSeparatorLine_eq (l : List Char) :
    isSeparatorLine l = isSeparatorLineSpec l := by
  unfold isSeparatorLine isSeparatorLineSpec
  rw [Bool.and_comm]
  congr 1
  rw [Bool.eq_iff_iff]
  simp only [List.all_eq_true, decide_eq_true_eq]
  exact List.eq_replicate_length.symm

theorem stripLeadingPrompt_joinNl (h : List Char) (t : List (List Char))
    (hne : h ≠ []) (hng : h ≠ ['>']) :
    stripLeadingPrompt (joinNlChars (h :: t))
      = joinNlChars (stripLeadingPrompt h :: t) := by
  cases t with
  | nil => rfl
  | cons t2 ts =>
    cases h with
    | nil => exact absurd rfl hne
    | cons c hs =>
      by_cases hc : c = '>'
      · subst hc
        cases hs with
        | nil => exact absurd rfl hng
        | cons c2 hs2 =>
          by_cases hws : jsWhitespace c2 <;>
            simp [joinNlChars, stripLeadingPrompt, hws]
      · simp [joinNlChars, stripLeadingPrompt, hc]

/-- The tail of the detection pipeline is insensitive to whether the leading
prompt is stripped from the joined text (source) or from the first remaining
line before joining (spec), because the kept lines are non-blank and not a
bare prompt glyph. -/
theorem detectTail_eq (kept : List (List Char))
    (hfil : ∀ l ∈ kept, l ≠ [] ∧ l ≠ ['>']) :
    (if (trimChars (stripLeadingPrompt (joinNlChars kept))).isEmpty then none
     else some (String.mk (trimChars (stripLeadingPrompt (joinNlChars kept)))))
    = (if (trimChars (joinNlChars (specRest kept))).isEmpty then none
       else some (String.mk (trimChars (joinNlChars (specRest kept))))) := by
  cases kept with
  | nil => rfl
  | cons h t =>
    have hh := hfil h (List.mem_cons_self h t)
    rw [show specRest (h :: t) = stripLeadingPrompt h :: t from rfl,
      stripLeadingPrompt_joinNl h t hh.1 hh.2]

/-- **C6.** The source's pending-input detector coincides, on every input,
with the detector as the specification words it: fewer than two separator
lines (the horizontal-rule glyph repeated at least 10 times) report none;
otherwise the lines strictly between the last two separators are stripped of
escape sequences, blank lines and a bare prompt glyph are discarded, a leading
prompt is stripped, and the joined remainder is reported — none when empty. -/
theorem detectPiInputText_matches_spec (capturedOutput : String) :
    detectPiInputText capturedOutput = detectPendingInputSpec capturedOutput := by
  have hsepfun : isSeparatorLine = isSeparatorLineSpec :=
    funext isSeparatorLine_eq
  simp only [detectPiInputText, detectPendingInputSpec, hsepfun]
  by_cases h2 : (linesSatisfying isSeparatorLineSpec
      (splitNlChars capturedOutput.data)).length < 2
  · have hnot : ¬ 2 ≤ (linesSatisfying isSeparatorLineSpec
        (splitNlChars capturedOutput.data)).length := by omega
    rw [if_pos h2, if_neg hnot]
  · have hge : 2 ≤ (linesSatisfying isSeparatorLineSpec
        (splitNlChars capturedOutput.data)).length := by omega
    rw [if_neg h2, if_pos hge, List.drop_take]
    apply detectTail_eq
    intro l hl
    have hp := List.of_mem_filter hl
    simp only [Bool.and_eq_true, Bool.not_eq_true', List.isEmpty_eq_false,
      decide_eq_true_eq] at hp
    exact hp

end PiTmux
